import Mathlib

/-! Appointy meeting scheduler: embedding of `Appointy.go`.

The handlers of `meetingScheduler` (`get`, `post`, `getRandomMeeting`,
`getMeeting`) are embedded as functions on an explicit state: the scheduler
(mutex flag and map), the response writer, and a trace of the mutex and map
operations the handler performed.  Go strings are Lean strings, the map is an
association list whose list order stands for the order in which `range`
visits the map, and the standard-library calls the handlers make
(`strings.Split`, `fmt.Sprintf`, `http.ResponseWriter`, `sync.Mutex`,
`rand.Intn`) are embedded next to them.  `encoding/json` and the clock are
parameters of the handlers.
-/

namespace Appointy

/-! ## Data model -/

/-- Go `Participants` struct. -/
structure Participants where
  Name : String
  Email : String
  RSVP : String
deriving DecidableEq, Repr

/-- Instant of `time.Time`: seconds and nanoseconds since the epoch. -/
structure Time where
  sec : Int
  nsec : Nat
deriving DecidableEq, Repr

/-- Go `Meeting` struct. -/
structure Meeting where
  Id : String
  Title : String
  Participants : List Participants
  StartTime : Time
  EndTime : Time
  CreationTimestamp : Time
deriving DecidableEq, Repr

/-- Zero value of `time.Time`. -/
def Time.zero : Time := ⟨0, 0⟩

/-- Zero value of `Meeting` (what `var meeting Meeting` and `make` produce). -/
def Meeting.zero : Meeting := ⟨"", "", [], Time.zero, Time.zero, Time.zero⟩

/-- Go `meetingScheduler`: the embedded `sync.Mutex` (held or not) and the
`store` map, kept as an association list. -/
structure meetingScheduler where
  locked : Bool
  store : List (String × Meeting)
deriving DecidableEq, Repr

/-- Go `newMeetingScheduler`: zero mutex, empty map. -/
def newMeetingScheduler : meetingScheduler := ⟨false, []⟩

/-! ## Map operations -/

/-- Map read `h.store[k]` with the comma-ok result. -/
def mapLookup (k : String) : List (String × Meeting) → Option Meeting
  | [] => none
  | (k1, v) :: rest => if k1 = k then some v else mapLookup k rest

/-- Map write `h.store[k] = v`: replaces the value of an existing key, adds
the entry otherwise. -/
def mapAssign (k : String) (v : Meeting) : List (String × Meeting) → List (String × Meeting)
  | [] => [(k, v)]
  | (k1, v1) :: rest => if k1 = k then (k, v) :: rest else (k1, v1) :: mapAssign k v rest

/-- Keys of the map in `range` order. -/
def mapKeys (s : List (String × Meeting)) : List String := s.map Prod.fst

/-- Values of the map in `range` order. -/
def mapValues (s : List (String × Meeting)) : List Meeting := s.map Prod.snd

/-! ## Faults, events and the mutex -/

/-- Ways a handler run stops without returning. -/
inductive Fault where
  | unlockOfUnlockedMutex
  | lockBlocks
  | indexOutOfRange
deriving DecidableEq, Repr

/-- Mutex and map operations of a handler, in program order. -/
inductive Event where
  | lock
  | unlock
  | read
  | write
deriving DecidableEq, Repr

/-- Scheduler together with the operations performed so far. -/
structure St where
  h : meetingScheduler
  trace : List Event
deriving DecidableEq, Repr

/-- Go `h.Lock()`: acquires a free mutex; on a held mutex the caller blocks. -/
def St.Lock (s : St) : St × Option Fault :=
  if s.h.locked then (⟨s.h, s.trace ++ [Event.lock]⟩, some Fault.lockBlocks)
  else (⟨{ s.h with locked := true }, s.trace ++ [Event.lock]⟩, none)

/-- Go `h.Unlock()`: releases a held mutex; on a free mutex the runtime stops
the program with "sync: unlock of unlocked mutex". -/
def St.Unlock (s : St) : St × Option Fault :=
  if s.h.locked then (⟨{ s.h with locked := false }, s.trace ++ [Event.unlock]⟩, none)
  else (⟨s.h, s.trace ++ [Event.unlock]⟩, some Fault.unlockOfUnlockedMutex)

/-- Go `len(h.store)`. -/
def St.len (s : St) : Nat × St := (s.h.store.length, ⟨s.h, s.trace ++ [Event.read]⟩)

/-- Go `range h.store`: the entries in visiting order. -/
def St.range (s : St) : List (String × Meeting) × St :=
  (s.h.store, ⟨s.h, s.trace ++ [Event.read]⟩)

/-- Go `h.store[k]` read. -/
def St.lookup (s : St) (k : String) : Option Meeting × St :=
  (mapLookup k s.h.store, ⟨s.h, s.trace ++ [Event.read]⟩)

/-- Go `h.store[k] = v`. -/
def St.assign (s : St) (k : String) (v : Meeting) : St :=
  ⟨{ s.h with store := mapAssign k v s.h.store }, s.trace ++ [Event.write]⟩

/-- Lock discipline of a trace, given whether the handler holds the mutex:
lock only when not holding, unlock and map access only when holding, and
nothing held at the end. -/
def disciplinedFrom : Bool → List Event → Bool
  | held, [] => !held
  | held, Event.lock :: t => !held && disciplinedFrom true t
  | held, Event.unlock :: t => held && disciplinedFrom false t
  | held, Event.read :: t => held && disciplinedFrom held t
  | held, Event.write :: t => held && disciplinedFrom held t

/-- Lock discipline of a handler that starts without the mutex. -/
def disciplined (t : List Event) : Bool := disciplinedFrom false t

/-! ## Library calls -/

/-- Go `textproto.CanonicalMIMEHeaderKey` on header tokens: first letter and
letters after a hyphen upper case, the rest lower case. -/
def canonicalChars : Bool → List Char → List Char
  | _, [] => []
  | up, c :: cs => (if up then c.toUpper else c.toLower) :: canonicalChars (c = '-') cs

/-- Canonical form of a header key. -/
def CanonicalMIMEHeaderKey (k : String) : String := String.mk (canonicalChars true k.data)

/-- Go `http.Header`, as the list of (canonical key, value) in order of addition. -/
abbrev Header := List (String × String)

/-- Go `Header.Add`. -/
def Header.Add (hd : Header) (k v : String) : Header := hd ++ [(CanonicalMIMEHeaderKey k, v)]

/-- Go `Header.Get`: first value of the key, or the empty string. -/
def Header.Get (hd : Header) (k : String) : String :=
  match hd.find? (fun e => e.1 = CanonicalMIMEHeaderKey k) with
  | some e => e.2
  | none => ""

/-- Go `http.ResponseWriter` of the standard server, as far as the handler
drives it: the header map the handler fills, the status once `WriteHeader`
has run, the handler's headers frozen at that moment, and the body written so
far.  Headers the server adds on its own (Date, Content-Length,
Content-Type sniffing) are not part of it. -/
structure ResponseWriter where
  header : Header
  status : Option Nat
  sent : Header
  body : String
deriving DecidableEq, Repr

/-- Response writer handed to a handler. -/
def ResponseWriter.fresh : ResponseWriter := ⟨[], none, [], ""⟩

/-- Go `w.WriteHeader(code)`: the first call fixes status and headers, later
calls are ignored. -/
def ResponseWriter.WriteHeader (w : ResponseWriter) (code : Nat) : ResponseWriter :=
  match w.status with
  | some _ => w
  | none => { w with status := some code, sent := w.header }

/-- Go `w.Write(b)`: an implicit `WriteHeader(200)` when none has run, then
the bytes are appended. -/
def ResponseWriter.Write (w : ResponseWriter) (b : String) : ResponseWriter :=
  let w1 := w.WriteHeader 200
  { w1 with body := w1.body ++ b }

/-- Go `w.Header().Add(k, v)`. -/
def ResponseWriter.HeaderAdd (w : ResponseWriter) (k v : String) : ResponseWriter :=
  { w with header := w.header.Add k v }

/-- Status the client receives when the handler returns: 200 when the
handler never called `WriteHeader`. -/
def ResponseWriter.statusCode (w : ResponseWriter) : Nat := w.status.getD 200

/-- Headers set by the handler that go out with the response: the header map
as frozen by `WriteHeader`, or the live map when the handler returns without
calling it.  The server sends headers of its own next to these (Date,
Content-Length); they are not listed here. -/
def ResponseWriter.sentHeader (w : ResponseWriter) : Header :=
  match w.status with
  | some _ => w.sent
  | none => w.header

/-- Go `*http.Request`, as far as the handlers look at it: `r.URL.String()`,
`r.Header`, and the outcome of `ioutil.ReadAll(r.Body)`. -/
structure Request where
  url : String
  header : Header
  body : Except String String

/-- Go `encoding/json` on the types of this program; an error carries `err.Error()`. -/
structure Json where
  Unmarshal : String → Except String Meeting
  Marshal : Meeting → Except String String
  MarshalList : List Meeting → Except String String

/-- Go `strings.Split` for a non-empty separator, on characters: `skip` counts
the characters of a matched separator still to drop, `cur` is the current
piece in reverse. -/
def splitAux (sep : List Char) : List Char → Nat → List Char → List (List Char)
  | [], _, cur => [cur.reverse]
  | _ :: cs, skip + 1, cur => splitAux sep cs skip cur
  | c :: cs, 0, cur =>
    if sep.isPrefixOf (c :: cs) then cur.reverse :: splitAux sep cs (sep.length - 1) []
    else splitAux sep cs 0 (c :: cur)

/-- Go `strings.Split(s, sep)`; an empty separator splits after each character. -/
def Split (s sep : String) : List String :=
  if sep.data = [] then s.data.map (fun c => String.mk [c])
  else (splitAux sep.data s.data 0 []).map String.mk

/-- Go `fmt.Sprintf("%d", n)`. -/
def SprintfD (n : Int) : String :=
  match n with
  | Int.ofNat m => Nat.repr m
  | Int.negSucc m => "-" ++ Nat.repr (m + 1)

/-- Go loop `i := 0; for ... { buf[i] = x; i++ }` over the values `xs`; an
index past the end of `buf` panics. -/
def fillFrom {α : Type} : List α → Nat → List α → Option (List α)
  | buf, _, [] => some buf
  | buf, i, x :: xs => if i < buf.length then fillFrom (buf.set i x) (i + 1) xs else none

/-! ## Handlers -/

/-- Result of running a handler: final scheduler and response writer, the
trace of mutex and map operations, and the fault if the handler did not
return. -/
structure Run where
  h : meetingScheduler
  w : ResponseWriter
  trace : List Event
  fault : Option Fault
deriving DecidableEq, Repr

/-- Handler return with the state `s`. -/
def St.done (s : St) (w : ResponseWriter) : Run := ⟨s.h, w, s.trace, none⟩

/-- Handler stopped by the fault `f` in state `s`. -/
def St.stop (s : St) (w : ResponseWriter) (f : Fault) : Run := ⟨s.h, w, s.trace, some f⟩

/-- Handler return with a pending `defer h.Unlock()`. -/
def St.deferredUnlock (s : St) (w : ResponseWriter) : Run :=
  match s.Unlock with
  | (s1, some f) => s1.stop w f
  | (s1, none) => s1.done w

/-- Tail shared by `get` and `getMeeting`: a marshal error writes 500 and the
error text and falls through; then the content type, 200 and the bytes. -/
def writeJson (w : ResponseWriter) (res : Except String String) : ResponseWriter :=
  let p : String × ResponseWriter :=
    match res with
    | Except.error err => ("", (w.WriteHeader 500).Write err)
    | Except.ok jsonBytes => (jsonBytes, w)
  ((p.2.HeaderAdd "content-type" "application/json").WriteHeader 200).Write p.1

/-- Go `(*meetingScheduler).get` (lines 118-137). -/
def get (J : Json) (h : meetingScheduler) (w : ResponseWriter) (_r : Request) : Run :=
  let s0 : St := ⟨h, []⟩
  let (n, s1) := s0.len
  let (entries, s2) := s1.range
  match fillFrom (List.replicate n Meeting.zero) 0 (mapValues entries) with
  | none => s2.stop w Fault.indexOutOfRange
  | some meetings =>
    match s2.Unlock with
    | (s3, some f) => s3.stop w f
    | (s3, none) => s3.done (writeJson w (J.MarshalList meetings))

/-- Go `(*meetingScheduler).post` (lines 139-167); `now` is the reading of
`time.Now().UnixNano()`.  The deferred `r.Body.Close()` touches neither the
scheduler nor the response and is left out. -/
def post (J : Json) (now : Int) (h : meetingScheduler) (w : ResponseWriter) (r : Request) : Run :=
  let s0 : St := ⟨h, []⟩
  match r.body with
  | Except.error err => s0.done ((w.WriteHeader 500).Write err)
  | Except.ok bodyBytes =>
    let ct := r.header.Get "content-type"
    if ct ≠ "application/json" then
      s0.done ((w.WriteHeader 415).Write
        ("need content-type 'application/json', but got '" ++ ct ++ "'"))
    else
      match J.Unmarshal bodyBytes with
      | Except.error err => s0.done ((w.WriteHeader 400).Write err)
      | Except.ok parsed =>
        let meeting : Meeting := { parsed with Id := SprintfD now }
        match s0.Lock with
        | (s1, some f) => s1.stop w f
        | (s1, none) => (s1.assign meeting.Id meeting).deferredUnlock w

/-- Go `(*meetingScheduler).getRandomMeeting` (lines 169-192); `draw` is the
random source, `rand.Intn(n)` being `draw % n`.  A panic in the fill loop
comes before the `defer` and leaves the mutex held; a panic at the index
expression comes after it, so the deferred unlock runs. -/
def getRandomMeeting (draw : Nat) (h : meetingScheduler) (w : ResponseWriter) (_r : Request) : Run :=
  let s0 : St := ⟨h, []⟩
  let (n, s1) := s0.len
  match s1.Lock with
  | (s2, some f) => s2.stop w f
  | (s2, none) =>
    let (entries, s3) := s2.range
    match fillFrom (List.replicate n "") 0 (mapKeys entries) with
    | none => s3.stop w Fault.indexOutOfRange
    | some ids =>
      if ids.length = 0 then s3.deferredUnlock (w.WriteHeader 404)
      else
        let target? := if ids.length = 1 then ids[0]? else ids[draw % ids.length]?
        match target? with
        | none => (s3.Unlock).1.stop w Fault.indexOutOfRange
        | some target =>
          s3.deferredUnlock ((w.HeaderAdd "location" ("/meetings/" ++ target)).WriteHeader 302)

/-- Go `(*meetingScheduler).getMeeting` (lines 194-223); the pattern
`[p0, _, _]` is the test `len(parts) == 3` with `p0` being `parts[0]`. -/
def getMeeting (J : Json) (draw : Nat) (h : meetingScheduler) (w : ResponseWriter) (r : Request) : Run :=
  match Split r.url "/" with
  | [p0, _, _] =>
    if p0 = "random" then getRandomMeeting draw h w r
    else
      let s0 : St := ⟨h, []⟩
      match s0.Lock with
      | (s1, some f) => s1.stop w f
      | (s1, none) =>
        let (found, s2) := s1.lookup p0
        match s2.Unlock with
        | (s3, some f) => s3.stop w f
        | (s3, none) =>
          match found with
          | none => s3.done (w.WriteHeader 404)
          | some meeting => s3.done (writeJson w (J.Marshal meeting))
  | _ => (St.mk h []).done (w.WriteHeader 404)

/-! ## Sample inputs -/

/-- Meeting decoded from the first sample body. -/
def standup : Meeting := ⟨"", "Standup", [], Time.zero, Time.zero, Time.zero⟩

/-- Meeting decoded from the second sample body. -/
def retro : Meeting := ⟨"", "Retro", [], Time.zero, Time.zero, Time.zero⟩

/-- First sample body. -/
def standupBody : String := "\x7b\"Title\":\"Standup\"\x7d"

/-- Second sample body. -/
def retroBody : String := "\x7b\"Title\":\"Retro\"\x7d"

/-- Fragment of `encoding/json` for the sample runs: the two sample bodies
decode to the sample meetings and every other body is rejected with the
error text of the body `not-json`; encoding renders Id and Title only. -/
def sampleJson : Json where
  Unmarshal := fun b =>
    if b = standupBody then Except.ok standup
    else if b = retroBody then Except.ok retro
    else Except.error "invalid character 'o' in literal null (expecting 'u')"
  Marshal := fun m => Except.ok ("Id=" ++ m.Id ++ ";Title=" ++ m.Title)
  MarshalList := fun ms =>
    Except.ok (String.join (ms.map (fun m => "Id=" ++ m.Id ++ ";Title=" ++ m.Title ++ "\n")))

/-- POST request with the JSON content type and the given body. -/
def jsonPost (b : String) : Request :=
  ⟨"/meetings", [("Content-Type", "application/json")], Except.ok b⟩

/-- GET request for a URL. -/
def getReq (url : String) : Request := ⟨url, [], Except.ok ""⟩

/-- Scheduler after one POST of the first sample body at clock reading 5. -/
def oneMeeting : meetingScheduler :=
  (post sampleJson 5 newMeetingScheduler ResponseWriter.fresh (jsonPost standupBody)).h

/-! ## Reachable schedulers -/

/-- Schedulers reachable from `newMeetingScheduler` by handler calls that
return, with arbitrary requests, response writers, clock readings and random
draws. -/
inductive Reachable : meetingScheduler → Prop
  | init : Reachable newMeetingScheduler
  | byPost (J : Json) (now : Int) (h : meetingScheduler) (w : ResponseWriter) (r : Request) :
      Reachable h → (post J now h w r).fault = none → Reachable (post J now h w r).h
  | byGet (J : Json) (h : meetingScheduler) (w : ResponseWriter) (r : Request) :
      Reachable h → (get J h w r).fault = none → Reachable (get J h w r).h
  | byGetMeeting (J : Json) (draw : Nat) (h : meetingScheduler) (w : ResponseWriter)
      (r : Request) :
      Reachable h → (getMeeting J draw h w r).fault = none →
      Reachable (getMeeting J draw h w r).h
  | byGetRandomMeeting (draw : Nat) (h : meetingScheduler) (w : ResponseWriter) (r : Request) :
      Reachable h → (getRandomMeeting draw h w r).fault = none →
      Reachable (getRandomMeeting draw h w r).h

/-- Invariant of reachable schedulers: mutex free, every key non-empty and
equal to the Id of the meeting stored under it. -/
def Inv (h : meetingScheduler) : Prop :=
  h.locked = false ∧ ∀ k m, (k, m) ∈ h.store → k ≠ "" ∧ m.Id = k

/-- The body written by the handler contains the text `id`. -/
def bodyCarries (w : ResponseWriter) (id : String) : Prop :=
  id.data <:+: w.body.data

/-- Trace of `getRandomMeeting` when it returns. -/
def randomTrace : List Event := [Event.read, Event.lock, Event.read, Event.unlock]

/-- GET of the item URL of `id`, as `getMeeting` receives it from the route
"/meeting/". -/
def getItem (J : Json) (draw : Nat) (h : meetingScheduler) (id : String) : Run :=
  getMeeting J draw h ResponseWriter.fresh (getReq ("/meeting/" ++ id))

/-! ## Library lemmas -/

theorem fillFrom_append {α : Type} (d : α) (xs : List α) :
    ∀ pre : List α,
      fillFrom (pre ++ List.replicate xs.length d) pre.length xs = some (pre ++ xs) := by
  induction xs with
  | nil => intro pre; simp [fillFrom]
  | cons x xs ih =>
    intro pre
    have hlt : pre.length < (pre ++ List.replicate (x :: xs).length d).length := by
      simp
    have hset : (pre ++ List.replicate (x :: xs).length d).set pre.length x
        = (pre ++ [x]) ++ List.replicate xs.length d := by
      simp [List.replicate_succ]
    have := ih (pre ++ [x])
    simp only [List.length_append, List.length_singleton] at this
    rw [fillFrom, if_pos hlt, hset, this]
    simp

theorem fillFrom_replicate {α : Type} (d : α) (xs : List α) :
    fillFrom (List.replicate xs.length d) 0 xs = some xs := by
  simpa using fillFrom_append d xs []

theorem canonical_location : CanonicalMIMEHeaderKey "location" = "Location" := by decide

theorem canonical_content_type : CanonicalMIMEHeaderKey "content-type" = "Content-Type" := by
  decide

theorem Split_leading_slash (rest : List Char) :
    Split (String.mk ('/' :: rest)) "/"
      = "" :: (splitAux ['/'] rest 0 []).map String.mk := by
  simp [Split, splitAux, List.isPrefixOf]

/-! ## Map lemmas -/

theorem mapLookup_eq_none_iff (k : String) (s : List (String × Meeting)) :
    mapLookup k s = none ↔ k ∉ mapKeys s := by
  induction s with
  | nil => simp [mapLookup, mapKeys]
  | cons e rest ih =>
    obtain ⟨k1, v⟩ := e
    by_cases hk : k1 = k
    · simp [mapLookup, mapKeys, hk]
    · have hk2 : ¬ k = k1 := fun h => hk h.symm
      simp only [mapKeys] at ih
      simp [mapLookup, mapKeys, hk, hk2, ih]

theorem mapAssign_fresh (k : String) (v : Meeting) (s : List (String × Meeting))
    (hk : k ∉ mapKeys s) : mapAssign k v s = s ++ [(k, v)] := by
  induction s with
  | nil => simp [mapAssign]
  | cons e rest ih =>
    obtain ⟨k1, v1⟩ := e
    simp only [mapKeys, List.map_cons, List.mem_cons, not_or] at hk
    have hk1 : ¬ k1 = k := fun h => hk.1 h.symm
    simp [mapAssign, hk1, ih (by simpa [mapKeys] using hk.2)]

theorem mem_mapAssign (k : String) (v : Meeting) (s : List (String × Meeting))
    (e : String × Meeting) (he : e ∈ mapAssign k v s) : e = (k, v) ∨ e ∈ s := by
  induction s with
  | nil => simpa [mapAssign] using he
  | cons e1 rest ih =>
    obtain ⟨k1, v1⟩ := e1
    by_cases hk : k1 = k
    · simp only [mapAssign, hk, if_true, List.mem_cons] at he
      rcases he with he | he
      · exact Or.inl he
      · exact Or.inr (List.mem_cons_of_mem _ he)
    · simp only [mapAssign, hk, if_false, List.mem_cons] at he
      rcases he with he | he
      · exact Or.inr (by simp [he])
      · rcases ih he with h1 | h1
        · exact Or.inl h1
        · exact Or.inr (List.mem_cons_of_mem _ h1)

theorem mapLookup_mapAssign_self (k : String) (v : Meeting) (s : List (String × Meeting)) :
    mapLookup k (mapAssign k v s) = some v := by
  induction s with
  | nil => simp [mapAssign, mapLookup]
  | cons e rest ih =>
    obtain ⟨k1, v1⟩ := e
    by_cases hk : k1 = k
    · simp [mapAssign, mapLookup, hk]
    · simp [mapAssign, mapLookup, hk, ih]

theorem mapLookup_append_of_some (k : String) (m : Meeting) (s t : List (String × Meeting))
    (h : mapLookup k s = some m) : mapLookup k (s ++ t) = some m := by
  induction s with
  | nil => simp [mapLookup] at h
  | cons e rest ih =>
    obtain ⟨k1, v1⟩ := e
    by_cases hk : k1 = k
    · simpa [mapLookup, hk] using h
    · simp only [mapLookup, hk, if_false] at h
      simp [mapLookup, hk, ih h]

theorem mapLookup_mem (k : String) (m : Meeting) (s : List (String × Meeting))
    (h : mapLookup k s = some m) : (k, m) ∈ s := by
  induction s with
  | nil => simp [mapLookup] at h
  | cons e rest ih =>
    obtain ⟨k1, v1⟩ := e
    by_cases hk : k1 = k
    · simp only [mapLookup, hk, if_true, Option.some.injEq] at h
      simp [hk, h]
    · simp only [mapLookup, hk, if_false] at h
      exact List.mem_cons_of_mem _ (ih h)

/-! ## SprintfD -/

theorem toDigitsCore_ne_nil (b fuel : Nat) :
    ∀ (n : Nat) (ds : List Char), ds ≠ [] → Nat.toDigitsCore b fuel n ds ≠ [] := by
  induction fuel with
  | zero => intro n ds h; simpa [Nat.toDigitsCore] using h
  | succ f ih =>
    intro n ds _
    simp only [Nat.toDigitsCore]
    split
    · simp
    · exact ih _ _ (by simp)

theorem repr_ne_empty (m : Nat) : Nat.repr m ≠ "" := by
  have h : Nat.toDigits 10 m ≠ [] := by
    simp only [Nat.toDigits, Nat.toDigitsCore]
    split
    · simp
    · exact toDigitsCore_ne_nil _ _ _ _ (by simp)
  intro hc
  apply h
  have := congrArg String.data hc
  simpa [Nat.repr, List.asString] using this

theorem SprintfD_ne_empty (n : Int) : SprintfD n ≠ "" := by
  cases n with
  | ofNat m => exact repr_ne_empty m
  | negSucc m =>
    intro hc
    have := congrArg String.data hc
    simp [SprintfD] at this

/-! ## Handler runs with a free mutex -/

theorem post_accept (J : Json) (now : Int) (store : List (String × Meeting))
    (w : ResponseWriter) (r : Request) (b : String) (M : Meeting)
    (hb : r.body = Except.ok b) (hct : r.header.Get "content-type" = "application/json")
    (hM : J.Unmarshal b = Except.ok M) :
    post J now ⟨false, store⟩ w r
      = ⟨⟨false, mapAssign (SprintfD now) { M with Id := SprintfD now } store⟩, w,
          [Event.lock, Event.write, Event.unlock], none⟩ := by
  simp [post, hb, hct, hM, St.Lock, St.assign, St.deferredUnlock, St.Unlock, St.done]

theorem get_run (J : Json) (store : List (String × Meeting)) (w : ResponseWriter)
    (r : Request) :
    get J ⟨false, store⟩ w r
      = ⟨⟨false, store⟩, w, [Event.read, Event.read, Event.unlock],
          some Fault.unlockOfUnlockedMutex⟩ := by
  have hlen : store.length = (mapValues store).length := by simp [mapValues]
  simp only [get, St.len, St.range]
  rw [hlen, fillFrom_replicate]
  simp [St.Unlock, St.stop]

theorem getRandomMeeting_empty (draw : Nat) (w : ResponseWriter) (r : Request) :
    getRandomMeeting draw ⟨false, []⟩ w r
      = ⟨⟨false, []⟩, w.WriteHeader 404, randomTrace, none⟩ := by
  simp [getRandomMeeting, St.len, St.Lock, St.range, mapKeys, fillFrom, St.deferredUnlock,
    St.Unlock, St.done, randomTrace]

theorem getRandomMeeting_nonempty (draw : Nat) (store : List (String × Meeting))
    (w : ResponseWriter) (r : Request) (hne : store ≠ []) :
    ∃ id, id ∈ mapKeys store ∧ (store.length = 1 → mapKeys store = [id]) ∧
      getRandomMeeting draw ⟨false, store⟩ w r
        = ⟨⟨false, store⟩, (w.HeaderAdd "location" ("/meetings/" ++ id)).WriteHeader 302,
            randomTrace, none⟩ := by
  have hlen : store.length = (mapKeys store).length := by simp [mapKeys]
  have hpos : 0 < (mapKeys store).length := by
    rw [← hlen]; exact List.length_pos.mpr hne
  have hne0 : ¬ (mapKeys store).length = 0 := by omega
  by_cases h1 : (mapKeys store).length = 1
  · refine ⟨(mapKeys store).get ⟨0, hpos⟩, List.get_mem _ _ _, ?_, ?_⟩
    · intro _
      match hk : mapKeys store, hpos, h1 with
      | [a], _, _ => simp
    · simp only [getRandomMeeting, St.len, St.range, St.Lock, Bool.false_eq_true, if_false]
      rw [hlen, fillFrom_replicate]
      simp [h1, hpos, St.deferredUnlock, St.Unlock, St.done, randomTrace]
  · have hlt : draw % (mapKeys store).length < (mapKeys store).length := Nat.mod_lt _ hpos
    refine ⟨(mapKeys store).get ⟨draw % (mapKeys store).length, hlt⟩, List.get_mem _ _ _, ?_, ?_⟩
    · intro h; exact absurd (hlen ▸ h) h1
    · simp only [getRandomMeeting, St.len, St.range, St.Lock, Bool.false_eq_true, if_false]
      rw [hlen, fillFrom_replicate]
      simp [h1, hne0, hlt, St.deferredUnlock, St.Unlock, St.done, randomTrace]

theorem getRandomMeeting_h (draw : Nat) (store : List (String × Meeting))
    (w : ResponseWriter) (r : Request) :
    (getRandomMeeting draw ⟨false, store⟩ w r).h = ⟨false, store⟩ := by
  by_cases hne : store = []
  · subst hne; rw [getRandomMeeting_empty]
  · obtain ⟨id, _, _, hrun⟩ := getRandomMeeting_nonempty draw store w r hne
    rw [hrun]

theorem getMeeting_h (J : Json) (draw : Nat) (store : List (String × Meeting))
    (w : ResponseWriter) (r : Request) :
    (getMeeting J draw ⟨false, store⟩ w r).h = ⟨false, store⟩ := by
  unfold getMeeting
  split
  · split
    · exact getRandomMeeting_h draw store w r
    · simp only [St.Lock, St.lookup, St.Unlock, Bool.false_eq_true, if_false, if_true]
      split <;> rfl
  · simp [St.done]

/-- Run of `getMeeting` on a URL that starts with a slash, on a store without
the empty key: the piece before the first slash is the empty string, so the
handler answers 404 whatever follows. -/
theorem getMeeting_leading_slash (J : Json) (draw : Nat) (store : List (String × Meeting))
    (w : ResponseWriter) (rest : List Char) (hd : Header) (body : Except String String)
    (hk : mapLookup "" store = none) :
    (getMeeting J draw ⟨false, store⟩ w ⟨String.mk ('/' :: rest), hd, body⟩).w
        = w.WriteHeader 404 ∧
    (getMeeting J draw ⟨false, store⟩ w ⟨String.mk ('/' :: rest), hd, body⟩).fault
        = none := by
  unfold getMeeting
  simp only [Split_leading_slash]
  have hr : ¬ ("" : String) = "random" := by decide
  generalize (splitAux ['/'] rest 0 []).map String.mk = L
  rcases L with _ | ⟨a, _ | ⟨b, _ | ⟨c, t⟩⟩⟩ <;>
    simp [hr, St.Lock, St.lookup, St.Unlock, St.done, hk]

/-! ## Invariant -/

theorem Inv_post (J : Json) (now : Int) (h : meetingScheduler) (w : ResponseWriter)
    (r : Request) (hI : Inv h) : Inv (post J now h w r).h := by
  obtain ⟨locked, store⟩ := h
  obtain ⟨hl, hs⟩ := hI
  simp only at hl hs
  subst hl
  cases hb : r.body with
  | error e => simpa [post, hb, St.done, Inv] using hs
  | ok b =>
    by_cases hct : r.header.Get "content-type" = "application/json"
    · cases hM : J.Unmarshal b with
      | error e => simpa [post, hb, hct, hM, St.done, Inv] using hs
      | ok M =>
        rw [post_accept J now store w r b M hb hct hM]
        refine ⟨rfl, ?_⟩
        intro k m hkm
        rcases mem_mapAssign _ _ _ _ hkm with he | he
        · simp only [Prod.mk.injEq] at he
          obtain ⟨rfl, rfl⟩ := he
          exact ⟨SprintfD_ne_empty now, rfl⟩
        · exact hs k m he
    · simpa [post, hb, hct, St.done, Inv] using hs

theorem Inv_of_Reachable (h : meetingScheduler) (hr : Reachable h) : Inv h := by
  induction hr with
  | init => simp [Inv, newMeetingScheduler]
  | byPost J now h w r _ _ ih => exact Inv_post J now h w r ih
  | byGet J h w r _ _ ih =>
    obtain ⟨locked, store⟩ := h
    obtain ⟨hl, hs⟩ := ih
    simp only at hl hs
    subst hl
    rw [get_run]
    exact ⟨rfl, hs⟩
  | byGetMeeting J draw h w r _ _ ih =>
    obtain ⟨locked, store⟩ := h
    obtain ⟨hl, hs⟩ := ih
    simp only at hl hs
    subst hl
    rw [getMeeting_h]
    exact ⟨rfl, hs⟩
  | byGetRandomMeeting draw h w r _ _ ih =>
    obtain ⟨locked, store⟩ := h
    obtain ⟨hl, hs⟩ := ih
    simp only at hl hs
    subst hl
    rw [getRandomMeeting_h]
    exact ⟨rfl, hs⟩

theorem Inv_no_empty_key (h : meetingScheduler) (hI : Inv h) : mapLookup "" h.store = none := by
  cases hlk : mapLookup "" h.store with
  | none => rfl
  | some m => exact absurd rfl (hI.2 "" m (mapLookup_mem _ _ _ hlk)).1

/-! ## Sample facts -/

theorem jsonPost_contentType (b : String) :
    (jsonPost b).header.Get "content-type" = "application/json" := by
  show Header.Get [("Content-Type", "application/json")] "content-type" = "application/json"
  decide

theorem item_url (x : String) :
    "/meeting/" ++ x = String.mk ('/' :: ("meeting/".data ++ x.data)) := by
  apply String.ext
  simp

theorem oneMeeting_reachable : Reachable oneMeeting :=
  Reachable.byPost sampleJson 5 newMeetingScheduler ResponseWriter.fresh (jsonPost standupBody)
    Reachable.init (by decide)

theorem sampleJson_error_ne_empty (b e : String)
    (h : sampleJson.Unmarshal b = Except.error e) : e ≠ "" := by
  simp only [sampleJson] at h
  split_ifs at h
  simp only [Except.error.injEq] at h
  subst h
  decide

theorem getItem_404 (J : Json) (draw : Nat) (h : meetingScheduler) (id : String)
    (hI : Inv h) :
    (getItem J draw h id).w = ResponseWriter.fresh.WriteHeader 404 ∧
    (getItem J draw h id).fault = none := by
  obtain ⟨locked, store⟩ := h
  have hk := Inv_no_empty_key _ hI
  obtain ⟨hl, _⟩ := hI
  simp only at hl hk
  subst hl
  simp only [getItem, getReq, item_url]
  exact getMeeting_leading_slash J draw store _ _ _ _ hk

/-- Traces of `post` and of the lookup in `getMeeting` on the sample inputs:
both lock first, access the map once and unlock. -/
theorem post_and_lookup_traces :
    (post sampleJson 5 newMeetingScheduler ResponseWriter.fresh (jsonPost standupBody)).trace
      = [Event.lock, Event.write, Event.unlock] ∧
    disciplined
      (post sampleJson 5 newMeetingScheduler ResponseWriter.fresh (jsonPost standupBody)).trace
      = true ∧
    (getItem sampleJson 0 oneMeeting "5").trace = [Event.lock, Event.read, Event.unlock] ∧
    disciplined (getItem sampleJson 0 oneMeeting "5").trace = true := by
  decide

/-! ## Claims -/

/-- C1 (defect in the code): on every reachable scheduler, after `post` has
accepted a request with content type application/json whose body parses to
`M` and has stored it under the assigned Id, `getMeeting` on the item URL of
that Id returns 404 with an empty body instead of the meeting: the lookup
uses the piece before the leading slash, which is the empty string. -/
theorem post_then_getMeeting_not_found (J : Json) (now : Int) (draw : Nat)
    (h : meetingScheduler) (r : Request) (b : String) (M : Meeting)
    (hr : Reachable h) (hb : r.body = Except.ok b)
    (hct : r.header.Get "content-type" = "application/json")
    (hM : J.Unmarshal b = Except.ok M) :
    (post J now h ResponseWriter.fresh r).fault = none ∧
    mapLookup (SprintfD now) (post J now h ResponseWriter.fresh r).h.store
        = some { M with Id := SprintfD now } ∧
    (getItem J draw (post J now h ResponseWriter.fresh r).h (SprintfD now)).fault = none ∧
    (getItem J draw (post J now h ResponseWriter.fresh r).h (SprintfD now)).w.status
        = some 404 ∧
    (getItem J draw (post J now h ResponseWriter.fresh r).h (SprintfD now)).w.body = "" := by
  have hI := Inv_of_Reachable h hr
  have hI2 := Inv_post J now h ResponseWriter.fresh r hI
  obtain ⟨hw, hf⟩ := getItem_404 J draw _ (SprintfD now) hI2
  refine ⟨?_, ?_, hf, ?_, ?_⟩
  · obtain ⟨locked, store⟩ := h
    have hl : locked = false := hI.1
    subst hl
    rw [post_accept J now store _ _ b M hb hct hM]
  · obtain ⟨locked, store⟩ := h
    have hl : locked = false := hI.1
    subst hl
    rw [post_accept J now store _ _ b M hb hct hM]
    exact mapLookup_mapAssign_self _ _ _
  · rw [hw]; rfl
  · rw [hw]; rfl

theorem post_then_getMeeting_not_found_witness :
    Reachable newMeetingScheduler ∧
    (jsonPost standupBody).body = Except.ok standupBody ∧
    (jsonPost standupBody).header.Get "content-type" = "application/json" ∧
    sampleJson.Unmarshal standupBody = Except.ok standup ∧
    ((post sampleJson 5 newMeetingScheduler ResponseWriter.fresh (jsonPost standupBody)).fault
        = none ∧
    mapLookup (SprintfD 5)
        (post sampleJson 5 newMeetingScheduler ResponseWriter.fresh (jsonPost standupBody)).h.store
        = some { standup with Id := SprintfD 5 } ∧
    (getItem sampleJson 0
        (post sampleJson 5 newMeetingScheduler ResponseWriter.fresh (jsonPost standupBody)).h
        (SprintfD 5)).fault = none ∧
    (getItem sampleJson 0
        (post sampleJson 5 newMeetingScheduler ResponseWriter.fresh (jsonPost standupBody)).h
        (SprintfD 5)).w.status = some 404 ∧
    (getItem sampleJson 0
        (post sampleJson 5 newMeetingScheduler ResponseWriter.fresh (jsonPost standupBody)).h
        (SprintfD 5)).w.body = "") :=
  ⟨Reachable.init, rfl, by decide, rfl,
    post_then_getMeeting_not_found sampleJson 5 0 newMeetingScheduler (jsonPost standupBody)
      standupBody standup Reachable.init rfl (by decide) rfl⟩

/-- C5: on every reachable scheduler, for every non-empty id without a slash
that is not a key of the store, `getMeeting` on the item URL of the id returns
with status 404 and an empty body. -/
theorem getMeeting_unknown_id_not_found (J : Json) (draw : Nat) (h : meetingScheduler)
    (id : String) (hr : Reachable h) (_hne : id ≠ "") (_hslash : '/' ∉ id.data)
    (_hkey : id ∉ mapKeys h.store) :
    (getItem J draw h id).fault = none ∧
    (getItem J draw h id).w.status = some 404 ∧
    (getItem J draw h id).w.statusCode = 404 ∧
    (getItem J draw h id).w.body = "" := by
  obtain ⟨hw, hf⟩ := getItem_404 J draw h id (Inv_of_Reachable h hr)
  refine ⟨hf, ?_, ?_, ?_⟩ <;> rw [hw] <;> rfl

theorem getMeeting_unknown_id_not_found_witness :
    Reachable oneMeeting ∧ "7" ≠ "" ∧ '/' ∉ "7".data ∧ "7" ∉ mapKeys oneMeeting.store ∧
    (getItem sampleJson 0 oneMeeting "7").fault = none ∧
    (getItem sampleJson 0 oneMeeting "7").w.status = some 404 ∧
    (getItem sampleJson 0 oneMeeting "7").w.statusCode = 404 ∧
    (getItem sampleJson 0 oneMeeting "7").w.body = "" :=
  ⟨oneMeeting_reachable, by decide, by decide, by decide,
    getMeeting_unknown_id_not_found sampleJson 0 oneMeeting "7" oneMeeting_reachable
      (by decide) (by decide) (by decide)⟩

/-- C7 (defect in the code): on every reachable scheduler with a non-empty
store, `getMeeting` on the URL "/meeting/random" is not dispatched to the
random selector: it returns 404 without a Location header; and the random
selector, called on its own, redirects to "/meetings/<id>", a path other than
the item path "/meeting/<id>". -/
theorem getMeeting_random_url_not_found (J : Json) (draw : Nat) (h : meetingScheduler)
    (hr : Reachable h) (hne : h.store ≠ []) :
    (getItem J draw h "random").fault = none ∧
    (getItem J draw h "random").w.status = some 404 ∧
    (getItem J draw h "random").w.sentHeader = [] ∧
    ∃ id, id ∈ mapKeys h.store ∧
      (getRandomMeeting draw h ResponseWriter.fresh (getReq "/meeting/random")).w.sentHeader
        = [("Location", "/meetings/" ++ id)] := by
  have hI := Inv_of_Reachable h hr
  obtain ⟨hw, hf⟩ := getItem_404 J draw h "random" hI
  refine ⟨hf, ?_, ?_, ?_⟩
  · rw [hw]; rfl
  · rw [hw]; rfl
  · obtain ⟨locked, store⟩ := h
    have hl : locked = false := hI.1
    subst hl
    obtain ⟨id, hmem, _, hrun⟩ :=
      getRandomMeeting_nonempty draw store ResponseWriter.fresh (getReq "/meeting/random") hne
    refine ⟨id, hmem, ?_⟩
    rw [hrun]
    simp [ResponseWriter.sentHeader, ResponseWriter.WriteHeader, ResponseWriter.HeaderAdd,
      ResponseWriter.fresh, Header.Add, canonical_location]

theorem getMeeting_random_url_not_found_witness :
    Reachable oneMeeting ∧ oneMeeting.store ≠ [] ∧
    (getItem sampleJson 0 oneMeeting "random").fault = none ∧
    (getItem sampleJson 0 oneMeeting "random").w.status = some 404 ∧
    (getItem sampleJson 0 oneMeeting "random").w.sentHeader = [] ∧
    ∃ id, id ∈ mapKeys oneMeeting.store ∧
      (getRandomMeeting 0 oneMeeting ResponseWriter.fresh
        (getReq "/meeting/random")).w.sentHeader = [("Location", "/meetings/" ++ id)] :=
  ⟨oneMeeting_reachable, by decide,
    getMeeting_random_url_not_found sampleJson 0 oneMeeting oneMeeting_reachable (by decide)⟩

/-- C8 (defect in the code): for every store with the mutex not held, `get`
stops at its `h.Unlock()` with the fault "unlock of unlocked mutex" and has
written nothing to the response. -/
theorem get_unlocks_unheld_mutex (J : Json) (store : List (String × Meeting)) (r : Request) :
    (get J ⟨false, store⟩ ResponseWriter.fresh r).fault = some Fault.unlockOfUnlockedMutex ∧
    (get J ⟨false, store⟩ ResponseWriter.fresh r).w = ResponseWriter.fresh := by
  rw [get_run]
  exact ⟨rfl, rfl⟩

/-- C9: in every reachable scheduler every key of the store is a non-empty
string and the meeting stored under a key has that key as its Id. -/
theorem reachable_key_is_id (h : meetingScheduler) (hr : Reachable h) :
    (∀ k, k ∈ mapKeys h.store → k ≠ "") ∧
    (∀ k m, mapLookup k h.store = some m → m.Id = k) := by
  have hI := Inv_of_Reachable h hr
  constructor
  · intro k hk
    simp only [mapKeys, List.mem_map] at hk
    obtain ⟨⟨k1, m⟩, hmem, rfl⟩ := hk
    exact (hI.2 k1 m hmem).1
  · intro k m hlk
    exact (hI.2 k m (mapLookup_mem k m _ hlk)).2

theorem reachable_key_is_id_witness :
    Reachable oneMeeting ∧
    ((∀ k, k ∈ mapKeys oneMeeting.store → k ≠ "") ∧
     (∀ k m, mapLookup k oneMeeting.store = some m → m.Id = k)) :=
  ⟨oneMeeting_reachable, reachable_key_is_id oneMeeting oneMeeting_reachable⟩

/-- C10 (defect in the code): started with the mutex not held, `get` reads
the map twice without the mutex and then unlocks the mutex it does not hold,
and `getRandomMeeting` takes the length of the map before it locks; neither
trace keeps the lock discipline. -/
theorem get_and_getRandomMeeting_break_lock_discipline (J : Json) (draw : Nat)
    (store : List (String × Meeting)) (r : Request) :
    (get J ⟨false, store⟩ ResponseWriter.fresh r).trace
        = [Event.read, Event.read, Event.unlock] ∧
    disciplined (get J ⟨false, store⟩ ResponseWriter.fresh r).trace = false ∧
    (getRandomMeeting draw ⟨false, store⟩ ResponseWriter.fresh r).trace
        = [Event.read, Event.lock, Event.read, Event.unlock] ∧
    disciplined (getRandomMeeting draw ⟨false, store⟩ ResponseWriter.fresh r).trace
        = false := by
  have hr : (getRandomMeeting draw ⟨false, store⟩ ResponseWriter.fresh r).trace
      = randomTrace := by
    by_cases hne : store = []
    · subst hne; rw [getRandomMeeting_empty]
    · obtain ⟨id, _, _, hrun⟩ := getRandomMeeting_nonempty draw store ResponseWriter.fresh r hne
      rw [hrun]
  rw [get_run, hr]
  exact ⟨rfl, rfl, rfl, rfl⟩

/-- C6: for every store (mutex not held) and every random draw,
`getRandomMeeting` returns; it answers 404 exactly when the store is empty,
then without having set any header (so no Location); on a non-empty store it answers 302 with a Location
header whose trailing id is a key of the store, and that id is the sole key
when the store has exactly one entry. -/
theorem getRandomMeeting_outcome (draw : Nat) (store : List (String × Meeting))
    (r : Request) :
    (getRandomMeeting draw ⟨false, store⟩ ResponseWriter.fresh r).fault = none ∧
    ((getRandomMeeting draw ⟨false, store⟩ ResponseWriter.fresh r).w.status = some 404
        ↔ store = []) ∧
    (store = [] →
        (getRandomMeeting draw ⟨false, store⟩ ResponseWriter.fresh r).w.sentHeader = []) ∧
    (store ≠ [] →
        (getRandomMeeting draw ⟨false, store⟩ ResponseWriter.fresh r).w.status = some 302 ∧
        ∃ id, id ∈ mapKeys store ∧
          (getRandomMeeting draw ⟨false, store⟩ ResponseWriter.fresh r).w.sentHeader
            = [("Location", "/meetings/" ++ id)] ∧
          ∀ k m, store = [(k, m)] → id = k) := by
  by_cases hne : store = []
  · subst hne
    rw [getRandomMeeting_empty]
    exact ⟨rfl, ⟨fun _ => rfl, fun _ => rfl⟩, fun _ => rfl, fun h => absurd rfl h⟩
  · obtain ⟨id, hmem, hone, hrun⟩ :=
      getRandomMeeting_nonempty draw store ResponseWriter.fresh r hne
    rw [hrun]
    refine ⟨rfl, ⟨fun h => ?_, fun h => absurd h hne⟩, fun h => absurd h hne, fun _ => ⟨rfl, ?_⟩⟩
    · simp [ResponseWriter.WriteHeader, ResponseWriter.HeaderAdd, ResponseWriter.fresh] at h
    · refine ⟨id, hmem, ?_, ?_⟩
      · simp [ResponseWriter.sentHeader, ResponseWriter.WriteHeader, ResponseWriter.HeaderAdd,
          ResponseWriter.fresh, Header.Add, canonical_location]
      · intro k m hs
        have := hone (by simp [hs])
        simp only [hs, mapKeys, List.map_cons, List.map_nil, List.cons.injEq, and_true] at this
        exact this.symm

/-- C4: `post` answers 500 with the error text when the body cannot be read;
otherwise 415 with the message naming the received content type when that is
not exactly application/json, whatever the body; otherwise 400 with the
non-empty parse error text when the body does not parse; in these three cases
the scheduler is unchanged, and the scheduler changes only when the body was
read, the content type is application/json and the body parses. -/
theorem post_validation_order (J : Json) (now : Int) (h : meetingScheduler) (r : Request)
    (hJ : ∀ b e, J.Unmarshal b = Except.error e → e ≠ "") :
    (∀ e, r.body = Except.error e →
        (post J now h ResponseWriter.fresh r).fault = none ∧
        (post J now h ResponseWriter.fresh r).w.status = some 500 ∧
        (post J now h ResponseWriter.fresh r).w.body = e ∧
        (post J now h ResponseWriter.fresh r).h = h) ∧
    (∀ b, r.body = Except.ok b → r.header.Get "content-type" ≠ "application/json" →
        (post J now h ResponseWriter.fresh r).fault = none ∧
        (post J now h ResponseWriter.fresh r).w.status = some 415 ∧
        (post J now h ResponseWriter.fresh r).w.body
          = "need content-type 'application/json', but got '"
              ++ r.header.Get "content-type" ++ "'" ∧
        (post J now h ResponseWriter.fresh r).h = h) ∧
    (∀ b e, r.body = Except.ok b → r.header.Get "content-type" = "application/json" →
        J.Unmarshal b = Except.error e →
        (post J now h ResponseWriter.fresh r).fault = none ∧
        (post J now h ResponseWriter.fresh r).w.status = some 400 ∧
        (post J now h ResponseWriter.fresh r).w.body = e ∧ e ≠ "" ∧
        (post J now h ResponseWriter.fresh r).h = h) ∧
    ((post J now h ResponseWriter.fresh r).h ≠ h →
        ∃ b M, r.body = Except.ok b ∧ r.header.Get "content-type" = "application/json" ∧
          J.Unmarshal b = Except.ok M) := by
  refine ⟨?_, ?_, ?_, ?_⟩
  · intro e hb
    simp [post, hb, St.done, ResponseWriter.Write, ResponseWriter.WriteHeader,
      ResponseWriter.fresh]
  · intro b hb hct
    simp [post, hb, hct, St.done, ResponseWriter.Write, ResponseWriter.WriteHeader,
      ResponseWriter.fresh]
  · intro b e hb hct hM
    have := hJ b e hM
    simp [post, hb, hct, hM, St.done, ResponseWriter.Write, ResponseWriter.WriteHeader,
      ResponseWriter.fresh, this]
  · intro hch
    cases hb : r.body with
    | error e => exact absurd (by simp [post, hb, St.done]) hch
    | ok b =>
      by_cases hct : r.header.Get "content-type" = "application/json"
      · cases hM : J.Unmarshal b with
        | error e => exact absurd (by simp [post, hb, hct, hM, St.done]) hch
        | ok M => exact ⟨b, M, rfl, hct, hM⟩
      · exact absurd (by simp [post, hb, hct, St.done]) hch

theorem post_validation_order_witness :
    (∀ b e, sampleJson.Unmarshal b = Except.error e → e ≠ "") ∧
    ((∀ e, (jsonPost "not-json").body = Except.error e →
        (post sampleJson 5 oneMeeting ResponseWriter.fresh (jsonPost "not-json")).fault
          = none ∧
        (post sampleJson 5 oneMeeting ResponseWriter.fresh (jsonPost "not-json")).w.status
          = some 500 ∧
        (post sampleJson 5 oneMeeting ResponseWriter.fresh (jsonPost "not-json")).w.body = e ∧
        (post sampleJson 5 oneMeeting ResponseWriter.fresh (jsonPost "not-json")).h
          = oneMeeting) ∧
    (∀ b, (jsonPost "not-json").body = Except.ok b →
        (jsonPost "not-json").header.Get "content-type" ≠ "application/json" →
        (post sampleJson 5 oneMeeting ResponseWriter.fresh (jsonPost "not-json")).fault
          = none ∧
        (post sampleJson 5 oneMeeting ResponseWriter.fresh (jsonPost "not-json")).w.status
          = some 415 ∧
        (post sampleJson 5 oneMeeting ResponseWriter.fresh (jsonPost "not-json")).w.body
          = "need content-type 'application/json', but got '"
              ++ (jsonPost "not-json").header.Get "content-type" ++ "'" ∧
        (post sampleJson 5 oneMeeting ResponseWriter.fresh (jsonPost "not-json")).h
          = oneMeeting) ∧
    (∀ b e, (jsonPost "not-json").body = Except.ok b →
        (jsonPost "not-json").header.Get "content-type" = "application/json" →
        sampleJson.Unmarshal b = Except.error e →
        (post sampleJson 5 oneMeeting ResponseWriter.fresh (jsonPost "not-json")).fault
          = none ∧
        (post sampleJson 5 oneMeeting ResponseWriter.fresh (jsonPost "not-json")).w.status
          = some 400 ∧
        (post sampleJson 5 oneMeeting ResponseWriter.fresh (jsonPost "not-json")).w.body = e ∧
        e ≠ "" ∧
        (post sampleJson 5 oneMeeting ResponseWriter.fresh (jsonPost "not-json")).h
          = oneMeeting) ∧
    ((post sampleJson 5 oneMeeting ResponseWriter.fresh (jsonPost "not-json")).h ≠ oneMeeting →
        ∃ b M, (jsonPost "not-json").body = Except.ok b ∧
          (jsonPost "not-json").header.Get "content-type" = "application/json" ∧
          sampleJson.Unmarshal b = Except.ok M)) :=
  ⟨sampleJson_error_ne_empty,
    post_validation_order sampleJson 5 oneMeeting (jsonPost "not-json")
      sampleJson_error_ne_empty⟩

/-- C2, counterexample: on the store that holds the first sample meeting
under key "5", a POST of the second sample body that passes all validation at
clock reading 5 leaves the store with one entry (not two) and replaces the
meeting stored under "5". -/
theorem post_same_clock_overwrites :
    (jsonPost retroBody).body = Except.ok retroBody ∧
    (jsonPost retroBody).header.Get "content-type" = "application/json" ∧
    sampleJson.Unmarshal retroBody = Except.ok retro ∧
    (post sampleJson 5 oneMeeting ResponseWriter.fresh (jsonPost retroBody)).fault = none ∧
    oneMeeting.store.length = 1 ∧
    (post sampleJson 5 oneMeeting ResponseWriter.fresh (jsonPost retroBody)).h.store.length
      = 1 ∧
    mapLookup "5" oneMeeting.store = some { standup with Id := "5" } ∧
    mapLookup "5" (post sampleJson 5 oneMeeting ResponseWriter.fresh (jsonPost retroBody)).h.store
      = some { retro with Id := "5" } ∧
    ¬ ((post sampleJson 5 oneMeeting ResponseWriter.fresh (jsonPost retroBody)).h.store.length
          = oneMeeting.store.length + 1 ∧
       ∀ k m, mapLookup k oneMeeting.store = some m →
          mapLookup k
            (post sampleJson 5 oneMeeting ResponseWriter.fresh (jsonPost retroBody)).h.store
            = some m) := by
  refine ⟨rfl, by decide, rfl, by decide, by decide, by decide, by decide, by decide, ?_⟩
  intro hc
  exact absurd hc.1 (by decide)

/-- C2, amended: for every store (mutex not held) and every clock reading
whose decimal rendering is not yet a key of the store, a POST that passes all
validation returns and leaves a store with exactly one more entry, in which
every entry present before is still present and unchanged. -/
theorem post_adds_one_entry_when_id_fresh (J : Json) (now : Int)
    (store : List (String × Meeting)) (w : ResponseWriter) (r : Request) (b : String)
    (M : Meeting)
    (hb : r.body = Except.ok b) (hct : r.header.Get "content-type" = "application/json")
    (hM : J.Unmarshal b = Except.ok M) (hfresh : SprintfD now ∉ mapKeys store) :
    (post J now ⟨false, store⟩ w r).fault = none ∧
    (post J now ⟨false, store⟩ w r).h.store.length = store.length + 1 ∧
    (∀ e, e ∈ store → e ∈ (post J now ⟨false, store⟩ w r).h.store) ∧
    (∀ k m, mapLookup k store = some m →
        mapLookup k (post J now ⟨false, store⟩ w r).h.store = some m) := by
  rw [post_accept J now store w r b M hb hct hM]
  refine ⟨rfl, ?_, ?_, ?_⟩
  · simp [mapAssign_fresh _ _ _ hfresh]
  · intro e he
    simp only [mapAssign_fresh _ _ _ hfresh]
    exact List.mem_append_left _ he
  · intro k m hlk
    simp only [mapAssign_fresh _ _ _ hfresh]
    exact mapLookup_append_of_some k m store _ hlk

theorem post_adds_one_entry_when_id_fresh_witness :
    (jsonPost retroBody).body = Except.ok retroBody ∧
    (jsonPost retroBody).header.Get "content-type" = "application/json" ∧
    sampleJson.Unmarshal retroBody = Except.ok retro ∧
    SprintfD 6 ∉ mapKeys oneMeeting.store ∧
    ((post sampleJson 6 ⟨false, oneMeeting.store⟩ ResponseWriter.fresh
        (jsonPost retroBody)).fault = none ∧
    (post sampleJson 6 ⟨false, oneMeeting.store⟩ ResponseWriter.fresh
        (jsonPost retroBody)).h.store.length = oneMeeting.store.length + 1 ∧
    (∀ e, e ∈ oneMeeting.store →
        e ∈ (post sampleJson 6 ⟨false, oneMeeting.store⟩ ResponseWriter.fresh
          (jsonPost retroBody)).h.store) ∧
    (∀ k m, mapLookup k oneMeeting.store = some m →
        mapLookup k (post sampleJson 6 ⟨false, oneMeeting.store⟩ ResponseWriter.fresh
          (jsonPost retroBody)).h.store = some m)) :=
  ⟨rfl, by decide, rfl, by decide,
    post_adds_one_entry_when_id_fresh sampleJson 6 oneMeeting.store ResponseWriter.fresh
      (jsonPost retroBody) retroBody retro rfl (by decide) rfl (by decide)⟩

/-- C3, counterexample: the POSTs of the first sample body at clock readings
5 and 6 pass all validation and store the meeting under the Ids "5" and "6",
and in both runs `post` leaves the response writer as it received it: the
body is empty and does not contain the Id, and the two responses are equal
although the Ids differ. -/
theorem post_response_lacks_id :
    sampleJson.Unmarshal standupBody = Except.ok standup ∧
    mapLookup "5"
        (post sampleJson 5 newMeetingScheduler ResponseWriter.fresh (jsonPost standupBody)).h.store
      = some { standup with Id := "5" } ∧
    mapLookup "6"
        (post sampleJson 6 newMeetingScheduler ResponseWriter.fresh (jsonPost standupBody)).h.store
      = some { standup with Id := "6" } ∧
    (post sampleJson 5 newMeetingScheduler ResponseWriter.fresh (jsonPost standupBody)).w
      = ResponseWriter.fresh ∧
    (post sampleJson 5 newMeetingScheduler ResponseWriter.fresh (jsonPost standupBody)).w
      = (post sampleJson 6 newMeetingScheduler ResponseWriter.fresh (jsonPost standupBody)).w ∧
    (post sampleJson 5 newMeetingScheduler ResponseWriter.fresh (jsonPost standupBody)).w.body
      = "" ∧
    ¬ bodyCarries
        (post sampleJson 5 newMeetingScheduler ResponseWriter.fresh (jsonPost standupBody)).w
        "5" := by
  refine ⟨rfl, by decide, by decide, by decide, by decide, by decide, ?_⟩
  have hw : (post sampleJson 5 newMeetingScheduler ResponseWriter.fresh
      (jsonPost standupBody)).w = ResponseWriter.fresh := by decide
  rw [hw]
  simp [bodyCarries, ResponseWriter.fresh]

/-- C3, amended: for every store (mutex not held), a POST that passes all
validation returns and leaves the response writer as it received it (no
`WriteHeader`, `Write` or header call): the response has the implicit success
status 200 and an empty body, which does not contain the Id; the meeting is
stored under the Id that is the decimal rendering of the clock reading. -/
theorem post_success_response (J : Json) (now : Int) (store : List (String × Meeting))
    (w : ResponseWriter) (r : Request) (b : String) (M : Meeting)
    (hb : r.body = Except.ok b) (hct : r.header.Get "content-type" = "application/json")
    (hM : J.Unmarshal b = Except.ok M) :
    (post J now ⟨false, store⟩ w r).fault = none ∧
    (post J now ⟨false, store⟩ w r).w = w ∧
    (post J now ⟨false, store⟩ ResponseWriter.fresh r).w.statusCode = 200 ∧
    (post J now ⟨false, store⟩ ResponseWriter.fresh r).w.body = "" ∧
    ¬ bodyCarries (post J now ⟨false, store⟩ ResponseWriter.fresh r).w (SprintfD now) ∧
    mapLookup (SprintfD now) (post J now ⟨false, store⟩ w r).h.store
      = some { M with Id := SprintfD now } := by
  rw [post_accept J now store w r b M hb hct hM,
    post_accept J now store ResponseWriter.fresh r b M hb hct hM]
  refine ⟨rfl, rfl, rfl, rfl, ?_, mapLookup_mapAssign_self _ _ _⟩
  have hne : (SprintfD now).data ≠ [] := by
    intro hc
    exact SprintfD_ne_empty now (String.ext hc)
  simp [bodyCarries, ResponseWriter.fresh, hne]

theorem post_success_response_witness :
    (jsonPost standupBody).body = Except.ok standupBody ∧
    (jsonPost standupBody).header.Get "content-type" = "application/json" ∧
    sampleJson.Unmarshal standupBody = Except.ok standup ∧
    ((post sampleJson 5 ⟨false, []⟩ ResponseWriter.fresh (jsonPost standupBody)).fault = none ∧
    (post sampleJson 5 ⟨false, []⟩ ResponseWriter.fresh (jsonPost standupBody)).w
      = ResponseWriter.fresh ∧
    (post sampleJson 5 ⟨false, []⟩ ResponseWriter.fresh (jsonPost standupBody)).w.statusCode
      = 200 ∧
    (post sampleJson 5 ⟨false, []⟩ ResponseWriter.fresh (jsonPost standupBody)).w.body = "" ∧
    ¬ bodyCarries
        (post sampleJson 5 ⟨false, []⟩ ResponseWriter.fresh (jsonPost standupBody)).w
        (SprintfD 5) ∧
    mapLookup (SprintfD 5)
        (post sampleJson 5 ⟨false, []⟩ ResponseWriter.fresh (jsonPost standupBody)).h.store
      = some { standup with Id := SprintfD 5 }) :=
  ⟨rfl, by decide, rfl,
    post_success_response sampleJson 5 [] ResponseWriter.fresh (jsonPost standupBody)
      standupBody standup rfl (by decide) rfl⟩

end Appointy
